import Mathlib

/-!
Shallow embedding of the AVX-512 vector-register conversion kernels of
`aten/src/ATen/cpu/vec/vec512/vec512_convert.h`.

Modelling conventions:
* A 512-bit integer register of `w`-bit lanes is a `List Nat` of lane bit
  patterns, lane 0 first (each pattern `< 2 ^ w`).
* A register of 32-bit floats is modelled at the two levels at which the source
  manipulates it: as a `List Rat` of exact lane values for the arithmetic
  conversion kernels, and as a `List Nat` of IEEE-754 binary32 bit patterns for
  the BFloat16/Half kernels, which the source implements by bit manipulation.
* Kernels with an 8-bit destination return the lane values as `List Int`
  (signed values for `int8_t`, values in `[0, 255]` for `uint8_t`).
* A `VectorizedN<T, 2>` group is a pair of registers; its logical lanes are the
  first register's lanes followed by the second register's lanes, matching the
  low/high placement performed by the insert/extract intrinsics in the source.
-/

namespace Vec512Convert

/-- Bit pattern (low `w` bits) of an integer: reduction modulo `2 ^ w`. -/
def ofBits (w : Nat) (x : Int) : Nat := (x % (2 ^ w : Int)).toNat

/-- Signed (two's-complement) value of a `w`-bit pattern. -/
def toSigned (w : Nat) (b : Nat) : Int :=
  if b < 2 ^ (w - 1) then (b : Int) else (b : Int) - 2 ^ w

/-- Round a rational to the nearest integer, ties to even (the default x86
rounding mode used by the conversion intrinsics).  The fractional part
`q - ⌊q⌋ = r / q.den` is compared with `1/2` through the integer inequality
`2 * r ≶ q.den`. -/
def rne (q : ℚ) : Int :=
  let f := ⌊q⌋
  let r := q.num - f * q.den
  if 2 * r < q.den then f
  else if (q.den : Int) < 2 * r then f + 1
  else if f % 2 = 0 then f else f + 1

/-- Truncation of a rational toward zero. -/
def truncQ (q : ℚ) : Int := if 0 ≤ q then ⌊q⌋ else ⌈q⌉

/-- Value of a signed integer rounded to the nearest IEEE-754 binary32 value
(round-to-nearest-even), as performed by `_mm512_cvtepi64_ps` /
`_mm512_cvtepi32_ps`.  Exact below `2 ^ 24`; no overflow is possible for 64-bit
inputs since `2 ^ 63` is representable in binary32. -/
def roundIntToFloatVal (x : Int) : ℚ :=
  let a := x.natAbs
  if a ≤ 2 ^ 24 then (x : ℚ)
  else
    let t := Nat.log2 a
    (if x < 0 then (-1 : ℚ) else 1) * (rne (Rat.divInt a (2 ^ (t - 23))) : ℚ) * 2 ^ (t - 23)

/-! ### Lane semantics of the hardware intrinsics used by the source kernels -/

/-- `_mm512_cvtepi64_epi32` on one lane: truncate a 64-bit lane to its low
32 bits. -/
def cvtepi64_epi32_lane (b : Nat) : Nat := b % 2 ^ 32

/-- `_mm512_cvtepi32_epi64` on one lane: sign-extend a 32-bit lane to 64 bits. -/
def cvtepi32_epi64_lane (b : Nat) : Nat := ofBits 64 (toSigned 32 (b % 2 ^ 32))

/-- `_mm512_cvtepi8_epi32` on one lane: sign-extend an 8-bit lane to 32 bits. -/
def cvtepi8_epi32_lane (b : Nat) : Nat := ofBits 32 (toSigned 8 (b % 2 ^ 8))

/-- `_mm512_cvtepu8_epi32` on one lane: zero-extend an 8-bit lane to 32 bits
(the bit pattern, hence the unsigned value, is unchanged). -/
def cvtepu8_epi32_lane (b : Nat) : Nat := b % 2 ^ 8

/-- `_mm512_cvtepi64_ps` on one lane: signed 64-bit integer to the nearest
binary32 value. -/
def cvtepi64_ps_lane (b : Nat) : ℚ := roundIntToFloatVal (toSigned 64 (b % 2 ^ 64))

/-- `_mm512_cvtepi32_ps` on one lane: signed 32-bit integer to the nearest
binary32 value (exact for every value arising from an 8-bit source). -/
def cvtepi32_ps_lane (b : Nat) : ℚ := roundIntToFloatVal (toSigned 32 (b % 2 ^ 32))

/-- `_mm512_cvt_roundps_epi64` with `_MM_FROUND_TO_ZERO | _MM_FROUND_NO_EXC` on
one lane: truncate the float value toward zero; if the truncated value does not
fit in a signed 64-bit integer, return the x86 integer-indefinite pattern
`-2 ^ 63` instead of raising an exception (the function is total). -/
def cvt_roundps_epi64_lane (q : ℚ) : Int :=
  if truncQ q < -(2 ^ 63) ∨ 2 ^ 63 ≤ truncQ q then -(2 ^ 63) else truncQ q

/-! ### Companion scalar primitives not contained in the source file -/

/-- Modelled from the spec: one lane of `cvtfp32_bf16` (defined in
`vec512_bfloat16.h`, outside the provided source): the down-convert "keeps the
top 16 bits of the 32-bit representation, discarding low mantissa bits". -/
def cvtfp32_bf16_lane (b : Nat) : Nat := (b % 2 ^ 32) / 2 ^ 16

/-- Modelled from the spec: one lane of `cvtbf16_fp32` (defined in
`vec512_bfloat16.h`, outside the provided source): the up-convert "zero-extends
the 16 bits into the low mantissa bits of a 32-bit float", i.e. the 16
brain-float bits become the top 16 bits of the binary32 pattern and the low 16
bits are zero. -/
def cvtbf16_fp32_lane (h : Nat) : Nat := (h % 2 ^ 16) * 2 ^ 16

/-- Modelled from the spec: one lane of `cvtfp16_fp32` (outside the provided
source): "standard IEEE-754 binary16→binary32 conversion", written on bit
patterns (exact; covers normals, subnormals, infinities and NaNs). -/
def cvtfp16_fp32_lane (h0 : Nat) : Nat :=
  let h := h0 % 2 ^ 16
  let s := h / 2 ^ 15
  let e := (h / 2 ^ 10) % 2 ^ 5
  let m := h % 2 ^ 10
  if e = 31 then s * 2 ^ 31 + 255 * 2 ^ 23 + m * 2 ^ 13
  else if e = 0 then
    (if m = 0 then s * 2 ^ 31
     else
       let t :=
         if 512 ≤ m then 9 else if 256 ≤ m then 8 else if 128 ≤ m then 7
         else if 64 ≤ m then 6 else if 32 ≤ m then 5 else if 16 ≤ m then 4
         else if 8 ≤ m then 3 else if 4 ≤ m then 2 else if 2 ≤ m then 1 else 0
       s * 2 ^ 31 + (t + 103) * 2 ^ 23 + (m - 2 ^ t) * 2 ^ (23 - t))
  else s * 2 ^ 31 + (e + 112) * 2 ^ 23 + m * 2 ^ 13

/-- Modelled from the spec: one lane of `cvtfp32_fp16` (outside the provided
source): "standard IEEE-754 binary32→binary16 conversion; rounds to nearest
representable half, may overflow to infinity", written on bit patterns
(round-to-nearest-even; NaNs are quieted with their high payload bits kept). -/
def cvtfp32_fp16_lane (b0 : Nat) : Nat :=
  let b := b0 % 2 ^ 32
  let s := b / 2 ^ 31
  let e := (b / 2 ^ 23) % 2 ^ 8
  let m := b % 2 ^ 23
  if e = 255 then
    (if m = 0 then s * 2 ^ 15 + 31 * 2 ^ 10
     else s * 2 ^ 15 + 31 * 2 ^ 10 + 2 ^ 9 + (m / 2 ^ 13) % 2 ^ 9)
  else if 143 ≤ e ∨ (e = 142 ∧ 8384512 ≤ m) then s * 2 ^ 15 + 31 * 2 ^ 10
  else if e = 0 then s * 2 ^ 15
  else if e ≤ 112 then s * 2 ^ 15 + (rne (Rat.divInt (2 ^ 23 + m) (2 ^ (126 - e)))).toNat
  else s * 2 ^ 15 + (e - 113) * 2 ^ 10 + (rne (Rat.divInt (2 ^ 23 + m) (2 ^ 13))).toNat

/-- Saturate a signed value to the `int8_t` range. -/
def satInt8 (x : Int) : Int := max (-128) (min 127 x)

/-- Saturate a signed value to the `uint8_t` range. -/
def satUint8 (x : Int) : Int := max 0 (min 255 x)

/-- Modelled from the spec: one lane of `convert_float_to_int8<int8_t>`
(outside the provided source): "saturating conversion — values exceeding the
destination type's range clamp to its min/max rather than wrapping"; in-range
values are rounded to the nearest integer by the underlying conversion
instruction. -/
def convert_float_to_int8_lane_i8 (q : ℚ) : Int := satInt8 (rne q)

/-- Modelled from the spec: one lane of `convert_float_to_int8<uint8_t>`
(outside the provided source): saturating conversion to the `uint8_t` range. -/
def convert_float_to_int8_lane_u8 (q : ℚ) : Int := satUint8 (rne q)

/-- Modelled from the spec: one lane of `convert_int8_to_float<int8_t>`
(outside the provided source): "exact, lossless" — the float lane value equals
the signed 8-bit integer exactly. -/
def convert_int8_to_float_lane_i8 (b : Nat) : ℚ := (toSigned 8 (b % 2 ^ 8) : ℚ)

/-- Modelled from the spec: one lane of `convert_int8_to_float<uint8_t>`
(outside the provided source): "exact, lossless" — the float lane value equals
the unsigned 8-bit integer exactly. -/
def convert_int8_to_float_lane_u8 (b : Nat) : ℚ := ((b % 2 ^ 8 : Nat) : ℚ)

/-! ### Register-level kernels (`VecConvert<DstT, DstN, SrcT, SrcN>::apply`)

Names follow the template arguments of the C++ specialisations, destination
first. -/

/-- `VecConvert<float, 1, BFloat16, 1>::apply`: converts the low 256 bits of
the source register (its first 16 brain-float lanes) to 16 floats. -/
def VecConvert_float_1_BFloat16_1_apply (s : List Nat) : List Nat :=
  (s.take 16).map cvtbf16_fp32_lane

/-- `VecConvert<float, 1, Half, 1>::apply`: converts the low 256 bits of the
source register (its first 16 half-precision lanes) to 16 floats. -/
def VecConvert_float_1_Half_1_apply (s : List Nat) : List Nat :=
  (s.take 16).map cvtfp16_fp32_lane

/-- `VecConvert<BFloat16, 1, float, 1>::apply`: converts 16 float lanes to 16
brain-float lanes (placed in the low 256 bits of the result register). -/
def VecConvert_BFloat16_1_float_1_apply (s : List Nat) : List Nat :=
  s.map cvtfp32_bf16_lane

/-- `VecConvert<Half, 1, float, 1>::apply`: converts 16 float lanes to 16
half-precision lanes (placed in the low 256 bits of the result register). -/
def VecConvert_Half_1_float_1_apply (s : List Nat) : List Nat :=
  s.map cvtfp32_fp16_lane

/-- `VecConvert<float, 1, int64_t, 2>::apply`: each 64-bit lane of the two
source registers is converted by `_mm512_cvtepi64_ps`; the first register's
lanes form output lanes 0–7 (low half, via `_mm512_castps256_ps512`) and the
second register's lanes form output lanes 8–15 (via `_mm512_insertf32x8`). -/
def VecConvert_float_1_int64_2_apply (s0 s1 : List Nat) : List ℚ :=
  s0.map cvtepi64_ps_lane ++ s1.map cvtepi64_ps_lane

/-- `VecConvert<int64_t, 2, float, 1>::apply`: float lanes 0–7 (the low half,
via `_mm512_castps512_ps256`) are truncated into the first result register and
lanes 8–15 (via `_mm512_extractf32x8_ps`) into the second. -/
def VecConvert_int64_2_float_1_apply (s : List ℚ) : List Nat × List Nat :=
  ((s.take 8).map fun q => ofBits 64 (cvt_roundps_epi64_lane q),
   (s.drop 8).map fun q => ofBits 64 (cvt_roundps_epi64_lane q))

/-- `VecConvert<int32_t, 1, int64_t, 2>::apply`: each 64-bit lane is truncated
to its low 32 bits by `_mm512_cvtepi64_epi32`; the first register's lanes form
output lanes 0–7 and the second register's lanes form output lanes 8–15 (via
`_mm512_inserti32x8`). -/
def VecConvert_int32_1_int64_2_apply (s0 s1 : List Nat) : List Nat :=
  s0.map cvtepi64_epi32_lane ++ s1.map cvtepi64_epi32_lane

/-- `VecConvert<int64_t, 2, int32_t, 1>::apply`: 32-bit lanes 0–7 (the low
half, via `_mm512_castsi512_si256`) are sign-extended into the first result
register and lanes 8–15 (via `_mm512_extracti32x8_epi32`) into the second. -/
def VecConvert_int64_2_int32_1_apply (s : List Nat) : List Nat × List Nat :=
  ((s.take 8).map cvtepi32_epi64_lane, (s.drop 8).map cvtepi32_epi64_lane)

/-- `VecConvert<int32_t, 1, int8_t, 1>::apply`: the low 128 bits of the source
(its first 16 8-bit lanes, via `_mm512_castsi512_si128`) are sign-extended to
16 32-bit lanes by `_mm512_cvtepi8_epi32`. -/
def VecConvert_int32_1_int8_1_apply (s : List Nat) : List Nat :=
  (s.take 16).map cvtepi8_epi32_lane

/-- `VecConvert<int32_t, 1, uint8_t, 1>::apply`: the low 128 bits of the source
(its first 16 8-bit lanes, via `_mm512_castsi512_si128`) are zero-extended to
16 32-bit lanes by `_mm512_cvtepu8_epi32`. -/
def VecConvert_int32_1_uint8_1_apply (s : List Nat) : List Nat :=
  (s.take 16).map cvtepu8_epi32_lane

/-- `VecConvert<int8_t, 1, float, 1>::apply`: `convert_float_to_int8<int8_t>`
applied to the 16 float lanes (saturating; the 16 result bytes occupy the low
128 bits of the destination register). -/
def VecConvert_int8_1_float_1_apply (s : List ℚ) : List Int :=
  s.map convert_float_to_int8_lane_i8

/-- `VecConvert<uint8_t, 1, float, 1>::apply`: `convert_float_to_int8<uint8_t>`
applied to the 16 float lanes (saturating). -/
def VecConvert_uint8_1_float_1_apply (s : List ℚ) : List Int :=
  s.map convert_float_to_int8_lane_u8

/-- `VecConvert<float, 1, int8_t, 1>::apply`: `convert_int8_to_float<int8_t>`
applied to the first 16 8-bit lanes of the source register (exact). -/
def VecConvert_float_1_int8_1_apply (s : List Nat) : List ℚ :=
  (s.take 16).map convert_int8_to_float_lane_i8

/-- `VecConvert<float, 1, uint8_t, 1>::apply`: `convert_int8_to_float<uint8_t>`
applied to the first 16 8-bit lanes of the source register (exact). -/
def VecConvert_float_1_uint8_1_apply (s : List Nat) : List ℚ :=
  (s.take 16).map convert_int8_to_float_lane_u8

/-- Modelled from the spec: `VecConvert<int8_t, 1, int32_t, 1>::apply`, the
narrowing direction of the 8-bit↔32-bit kernel, which the provided source file
only uses (in the composed 8-bit↔64-bit conversion) but does not define.  Per
the spec's policy for 8-bit destinations it is saturating: each signed 32-bit
lane is clamped to the `int8_t` range. -/
def VecConvert_int8_1_int32_1_apply (s : List Nat) : List Int :=
  s.map fun b => satInt8 (toSigned 32 (b % 2 ^ 32))

/-- Modelled from the spec: `VecConvert<uint8_t, 1, int32_t, 1>::apply`, the
narrowing direction of the 8-bit↔32-bit kernel for an unsigned destination:
each signed 32-bit lane is clamped to the `uint8_t` range. -/
def VecConvert_uint8_1_int32_1_apply (s : List Nat) : List Int :=
  s.map fun b => satUint8 (toSigned 32 (b % 2 ^ 32))

/-- `VecConvert<int8_t, 1, int64_t, 2>::apply` (the `dst_t = int8_t` instance
of the enable-if specialisation): defined in the source as the composition of
`VecConvert<int32_t, 1, int64_t, 2>::apply` followed by
`VecConvert<int8_t, 1, int32_t, 1>::apply`. -/
def VecConvert_int8_1_int64_2_apply (s0 s1 : List Nat) : List Int :=
  VecConvert_int8_1_int32_1_apply (VecConvert_int32_1_int64_2_apply s0 s1)

/-- `VecConvert<uint8_t, 1, int64_t, 2>::apply` (the `dst_t = uint8_t` instance
of the enable-if specialisation): defined in the source as the composition of
`VecConvert<int32_t, 1, int64_t, 2>::apply` followed by
`VecConvert<uint8_t, 1, int32_t, 1>::apply`. -/
def VecConvert_uint8_1_int64_2_apply (s0 s1 : List Nat) : List Int :=
  VecConvert_uint8_1_int32_1_apply (VecConvert_int32_1_int64_2_apply s0 s1)

/-- Modelled from the spec: `VecConvert<int64_t, 2, int8_t, 1>::apply`, the
widening direction of the 8-bit↔64-bit conversion, absent from the provided
source file; per the spec it is "implemented by composing the 8-bit↔32-bit
kernel with the 32-bit↔64-bit kernel". -/
def VecConvert_int64_2_int8_1_apply (s : List Nat) : List Nat × List Nat :=
  VecConvert_int64_2_int32_1_apply (VecConvert_int32_1_int8_1_apply s)

/-- Modelled from the spec: `VecConvert<int64_t, 2, uint8_t, 1>::apply`, the
widening direction of the 8-bit↔64-bit conversion for an unsigned source,
composed through the 32-bit intermediate in the same way. -/
def VecConvert_int64_2_uint8_1_apply (s : List Nat) : List Nat × List Nat :=
  VecConvert_int64_2_int32_1_apply (VecConvert_int32_1_uint8_1_apply s)

/-- Logical lane sequence of a group of two registers. -/
def lanes2 (p : List Nat × List Nat) : List Nat := p.1 ++ p.2

end Vec512Convert

namespace Vec512Convert

/-! ### Lane-level helper lemmas -/

/-- Truncating a sign-extended 32-bit lane recovers the lane. -/
theorem wrap_sext (b : Nat) (hb : b < 2 ^ 32) :
    cvtepi64_epi32_lane (cvtepi32_epi64_lane b) = b := by
  simp only [cvtepi64_epi32_lane, cvtepi32_epi64_lane, ofBits, toSigned]
  split_ifs <;> omega

/-- Sign extension preserves the signed value of a 32-bit lane. -/
theorem toSigned64_sext (b : Nat) (hb : b < 2 ^ 32) :
    toSigned 64 (cvtepi32_epi64_lane b) = toSigned 32 b := by
  simp only [cvtepi32_epi64_lane, ofBits, toSigned]
  split_ifs <;> omega

/-- Sign-extending the low 32 bits of a 64-bit lane whose signed value lies in
the `int32_t` range recovers the lane. -/
theorem sext_wrap (b : Nat) (hb : b < 2  ^ 64)
    (h1 : -(2 ^ 31) ≤ toSigned 64 b) (h2 : toSigned 64 b < 2 ^ 31) :
    cvtepi32_epi64_lane (cvtepi64_epi32_lane b) = b := by
  simp only [cvtepi64_epi32_lane, cvtepi32_epi64_lane, ofBits, toSigned] at *
  split_ifs at * <;> omega

/-- The composed `int64→int32→int8` lane sees only the low 32 bits of the
64-bit lane. -/
theorem comp_lane_i8 (b : Nat) :
    satInt8 (toSigned 32 (cvtepi64_epi32_lane b % 2 ^ 32))
      = satInt8 (toSigned 32 (b % 2 ^ 32)) := by
  have h : cvtepi64_epi32_lane b % 2 ^ 32 = b % 2 ^ 32 := by
    simp only [cvtepi64_epi32_lane]; omega
  rw [h]

/-- The composed `int64→int32→uint8` lane sees only the low 32 bits of the
64-bit lane. -/
theorem comp_lane_u8 (b : Nat) :
    satUint8 (toSigned 32 (cvtepi64_epi32_lane b % 2 ^ 32))
      = satUint8 (toSigned 32 (b % 2 ^ 32)) := by
  have h : cvtepi64_epi32_lane b % 2 ^ 32 = b % 2 ^ 32 := by
    simp only [cvtepi64_epi32_lane]; omega
  rw [h]

/-! ### Claim theorems -/

/-- C5: for every 32-bit lane value, narrowing the widened value returns it
exactly: at register level, converting an `int32` group to an `int64` group of
two (sign-extending each lane) and back is the identity, and at lane level the
round trip is the identity and widening preserves the signed value. -/
theorem int32_int64_narrow_widen_roundtrip (s : List Nat) (hs : ∀ b ∈ s, b < 2 ^ 32)
    (b : Nat) (hb : b < 2 ^ 32) :
    VecConvert_int32_1_int64_2_apply
        (VecConvert_int64_2_int32_1_apply s).1 (VecConvert_int64_2_int32_1_apply s).2 = s ∧
    cvtepi64_epi32_lane (cvtepi32_epi64_lane b) = b ∧
    toSigned 64 (cvtepi32_epi64_lane b) = toSigned 32 b := by
  refine ⟨?_, wrap_sext b hb, toSigned64_sext b hb⟩
  simp only [VecConvert_int32_1_int64_2_apply, VecConvert_int64_2_int32_1_apply, List.map_map]
  rw [← List.map_append, List.take_append_drop]
  calc s.map (cvtepi64_epi32_lane ∘ cvtepi32_epi64_lane)
      = s.map id := List.map_congr_left fun x hx => wrap_sext x (hs x hx)
    _ = s := List.map_id s

theorem int32_int64_narrow_widen_roundtrip_witness :
    (∀ b ∈ ([0, 1, 2147483648, 4294967295] : List Nat), b < 2 ^ 32) ∧ (5 : Nat) < 2 ^ 32 ∧
    (VecConvert_int32_1_int64_2_apply
        (VecConvert_int64_2_int32_1_apply [0, 1, 2147483648, 4294967295]).1
        (VecConvert_int64_2_int32_1_apply [0, 1, 2147483648, 4294967295]).2
        = [0, 1, 2147483648, 4294967295] ∧
     cvtepi64_epi32_lane (cvtepi32_epi64_lane 5) = 5 ∧
     toSigned 64 (cvtepi32_epi64_lane 5) = toSigned 32 5) :=
  ⟨by decide, by decide,
   int32_int64_narrow_widen_roundtrip [0, 1, 2147483648, 4294967295] (by decide) 5 (by decide)⟩

/-- C3: widening an `int64` group whose lanes lie in the `int32_t` range after
narrowing recovers the group (register level), and for a 64-bit integer outside
that range the narrowing lane returns its low 32 bits reinterpreted as a signed
32-bit integer (silent wrap, no saturation). -/
theorem int64_int32_widen_of_narrow_and_wrap (s0 s1 : List Nat) (h0 : s0.length = 8)
    (hall : ∀ b ∈ s0 ++ s1, b < 2 ^ 64 ∧ -(2 ^ 31) ≤ toSigned 64 b ∧ toSigned 64 b < 2 ^ 31)
    (y : Int) (hy1 : -(2 ^ 63) ≤ y) (hy2 : y < 2 ^ 63) :
    VecConvert_int64_2_int32_1_apply (VecConvert_int32_1_int64_2_apply s0 s1) = (s0, s1) ∧
    cvtepi64_epi32_lane (ofBits 64 y) = ofBits 32 y ∧
    toSigned 32 (cvtepi64_epi32_lane (ofBits 64 y)) = toSigned 32 (ofBits 32 y) := by
  have hwrap : cvtepi64_epi32_lane (ofBits 64 y) = ofBits 32 y := by
    simp only [cvtepi64_epi32_lane, ofBits]; omega
  have hlen : (s0.map cvtepi64_epi32_lane).length = 8 := by
    simpa using h0
  refine ⟨?_, hwrap, by rw [hwrap]⟩
  simp only [VecConvert_int32_1_int64_2_apply, VecConvert_int64_2_int32_1_apply]
  rw [List.take_left' hlen, List.drop_left' hlen, List.map_map, List.map_map]
  have e0 : s0.map (cvtepi32_epi64_lane ∘ cvtepi64_epi32_lane) = s0 := by
    calc s0.map (cvtepi32_epi64_lane ∘ cvtepi64_epi32_lane)
        = s0.map id := List.map_congr_left fun x hx => by
          obtain ⟨hx1, hx2, hx3⟩ := hall x (List.mem_append_left s1 hx)
          exact sext_wrap x hx1 hx2 hx3
      _ = s0 := List.map_id s0
  have e1 : s1.map (cvtepi32_epi64_lane ∘ cvtepi64_epi32_lane) = s1 := by
    calc s1.map (cvtepi32_epi64_lane ∘ cvtepi64_epi32_lane)
        = s1.map id := List.map_congr_left fun x hx => by
          obtain ⟨hx1, hx2, hx3⟩ := hall x (List.mem_append_right s0 hx)
          exact sext_wrap x hx1 hx2 hx3
      _ = s1 := List.map_id s1
  rw [e0, e1]

theorem int64_int32_widen_of_narrow_and_wrap_witness :
    ([0, 1, 2, 3, 4, 5, 6, 2147483647] : List Nat).length = 8 ∧
    (∀ b ∈ ([0, 1, 2, 3, 4, 5, 6, 2147483647] ++ [18446744071562067968, 7, 8, 9, 10, 11, 12, 13] :
        List Nat), b < 2 ^ 64 ∧ -(2 ^ 31) ≤ toSigned 64 b ∧ toSigned 64 b < 2 ^ 31) ∧
    -(2 ^ 63) ≤ (4294967301 : Int) ∧ (4294967301 : Int) < 2 ^ 63 ∧
    (VecConvert_int64_2_int32_1_apply
        (VecConvert_int32_1_int64_2_apply [0, 1, 2, 3, 4, 5, 6, 2147483647]
          [18446744071562067968, 7, 8, 9, 10, 11, 12, 13])
        = ([0, 1, 2, 3, 4, 5, 6, 2147483647], [18446744071562067968, 7, 8, 9, 10, 11, 12, 13]) ∧
     cvtepi64_epi32_lane (ofBits 64 4294967301) = ofBits 32 4294967301 ∧
     toSigned 32 (cvtepi64_epi32_lane (ofBits 64 4294967301))
        = toSigned 32 (ofBits 32 4294967301)) :=
  ⟨by decide, by decide, by decide, by decide,
   int64_int32_widen_of_narrow_and_wrap [0, 1, 2, 3, 4, 5, 6, 2147483647]
     [18446744071562067968, 7, 8, 9, 10, 11, 12, 13] (by decide) (by decide)
     4294967301 (by decide) (by decide)⟩

/-- C9: the 8-bit→32-bit kernels sign-extend (signed source) or zero-extend
(unsigned source) each lane, consume exactly the first 16 of the 64 source
lanes (the low 128 bits), and are unaffected by the remaining source lanes. -/
theorem int8_to_int32_extension (s t : List Nat) (hst : s.take 16 = t.take 16)
    (b : Nat) (hb : b < 2 ^ 8) :
    toSigned 32 (cvtepi8_epi32_lane b) = toSigned 8 b ∧
    cvtepu8_epi32_lane b = b ∧
    VecConvert_int32_1_int8_1_apply s = (s.take 16).map cvtepi8_epi32_lane ∧
    VecConvert_int32_1_uint8_1_apply s = (s.take 16).map cvtepu8_epi32_lane ∧
    VecConvert_int32_1_int8_1_apply s = VecConvert_int32_1_int8_1_apply t ∧
    VecConvert_int32_1_uint8_1_apply s = VecConvert_int32_1_uint8_1_apply t := by
  refine ⟨?_, ?_, rfl, rfl, ?_, ?_⟩
  · simp only [cvtepi8_epi32_lane, ofBits, toSigned]
    split_ifs <;> omega
  · simp only [cvtepu8_epi32_lane]; omega
  · simp only [VecConvert_int32_1_int8_1_apply, hst]
  · simp only [VecConvert_int32_1_uint8_1_apply, hst]

theorem int8_to_int32_extension_witness :
    (List.range 64).take 16 = ((List.range 16) ++ List.replicate 48 0).take 16 ∧
    (255 : Nat) < 2 ^ 8 ∧
    (toSigned 32 (cvtepi8_epi32_lane 255) = toSigned 8 255 ∧
     cvtepu8_epi32_lane 255 = 255 ∧
     VecConvert_int32_1_int8_1_apply (List.range 64)
        = ((List.range 64).take 16).map cvtepi8_epi32_lane ∧
     VecConvert_int32_1_uint8_1_apply (List.range 64)
        = ((List.range 64).take 16).map cvtepu8_epi32_lane ∧
     VecConvert_int32_1_int8_1_apply (List.range 64)
        = VecConvert_int32_1_int8_1_apply ((List.range 16) ++ List.replicate 48 0) ∧
     VecConvert_int32_1_uint8_1_apply (List.range 64)
        = VecConvert_int32_1_uint8_1_apply ((List.range 16) ++ List.replicate 48 0)) :=
  ⟨by decide, by decide,
   int8_to_int32_extension (List.range 64) ((List.range 16) ++ List.replicate 48 0)
     (by decide) 255 (by decide)⟩

/-- C10: the composed `int64` (group of 2) → `int8`/`uint8` conversion first
wraps every 64-bit lane modulo `2 ^ 32` and only then applies the saturating
32-bit→8-bit policy, so a lane far outside the 8-bit range whose low 32 bits
encode a small value converts as that small value: each lane of value
`2 ^ 32 + 5` (signed value `4294967301`) converts to `5`, not to the saturation
bound `127`. -/
theorem int64_to_int8_low32_then_saturate (s0 s1 : List Nat) :
    VecConvert_int8_1_int64_2_apply s0 s1
      = (s0 ++ s1).map (fun b => satInt8 (toSigned 32 (b % 2 ^ 32))) ∧
    VecConvert_uint8_1_int64_2_apply s0 s1
      = (s0 ++ s1).map (fun b => satUint8 (toSigned 32 (b % 2 ^ 32))) ∧
    VecConvert_int8_1_int64_2_apply (List.replicate 8 (2 ^ 32 + 5)) (List.replicate 8 (2 ^ 32 + 5))
      = List.replicate 16 5 ∧
    toSigned 64 (2 ^ 32 + 5) = 4294967301 := by
  refine ⟨?_, ?_, by decide, by decide⟩
  · simp only [VecConvert_int8_1_int64_2_apply, VecConvert_int8_1_int32_1_apply,
      VecConvert_int32_1_int64_2_apply, List.map_append, List.map_map]
    have hcomp : ((fun b => satInt8 (toSigned 32 (b % 2 ^ 32))) ∘ cvtepi64_epi32_lane)
        = fun b : Nat => satInt8 (toSigned 32 (b % 2 ^ 32)) :=
      funext fun b => comp_lane_i8 b
    rw [hcomp]
  · simp only [VecConvert_uint8_1_int64_2_apply, VecConvert_uint8_1_int32_1_apply,
      VecConvert_int32_1_int64_2_apply, List.map_append, List.map_map]
    have hcomp : ((fun b => satUint8 (toSigned 32 (b % 2 ^ 32))) ∘ cvtepi64_epi32_lane)
        = fun b : Nat => satUint8 (toSigned 32 (b % 2 ^ 32)) :=
      funext fun b => comp_lane_u8 b
    rw [hcomp]

/-- C6: in both directions the 8-bit ↔ 64-bit (group of 2) conversion equals
the sequential application of the 8-bit↔32-bit kernel and the 32-bit↔64-bit
kernel through the 32-bit intermediate, for both the signed and the unsigned
8-bit type. -/
theorem int8_int64_composed_kernels (s0 s1 t : List Nat) :
    VecConvert_int8_1_int64_2_apply s0 s1
      = VecConvert_int8_1_int32_1_apply (VecConvert_int32_1_int64_2_apply s0 s1) ∧
    VecConvert_uint8_1_int64_2_apply s0 s1
      = VecConvert_uint8_1_int32_1_apply (VecConvert_int32_1_int64_2_apply s0 s1) ∧
    VecConvert_int64_2_int8_1_apply t
      = VecConvert_int64_2_int32_1_apply (VecConvert_int32_1_int8_1_apply t) ∧
    VecConvert_int64_2_uint8_1_apply t
      = VecConvert_int64_2_int32_1_apply (VecConvert_int32_1_uint8_1_apply t) :=
  ⟨rfl, rfl, rfl, rfl⟩

end Vec512Convert

namespace Vec512Convert

/-- `rne` returns the floor or the floor plus one. -/
theorem rne_cases (q : ℚ) : rne q = ⌊q⌋ ∨ rne q = ⌊q⌋ + 1 := by
  simp only [rne]
  split_ifs <;> omega

/-- `roundIntToFloatVal` is the identity on integers of magnitude at most
`2 ^ 24`. -/
theorem roundIntToFloatVal_exact (x : Int) (h : x.natAbs ≤ 2 ^ 24) :
    roundIntToFloatVal x = (x : ℚ) := by
  simp only [roundIntToFloatVal]
  rw [if_pos h]

/-- Reading back a stored small signed value from a 32-bit pattern. -/
theorem toSigned32_ofBits32_small (x : Int) (h1 : -(2 ^ 31) ≤ x) (h2 : x < 2 ^ 31) :
    toSigned 32 (ofBits 32 x % 2 ^ 32) = x := by
  simp only [toSigned, ofBits]
  split_ifs <;> omega

/-- The signed value of an 8-bit lane is bounded by `2 ^ 24` in magnitude. -/
theorem toSigned8_natAbs_le (c : Nat) : (toSigned 8 (c % 2 ^ 8)).natAbs ≤ 2 ^ 24 := by
  simp only [toSigned]
  split_ifs <;> omega

/-- The signed value of an 8-bit lane lies in the `int32_t` range. -/
theorem toSigned8_range (c : Nat) :
    -(2 ^ 31) ≤ toSigned 8 (c % 2 ^ 8) ∧ toSigned 8 (c % 2 ^ 8) < 2 ^ 31 := by
  simp only [toSigned]
  split_ifs <;> omega

/-- The direct `int8→float` lane agrees with the composed `int8→int32→float`
lane. -/
theorem lane_i8_direct_eq_composed (c : Nat) :
    convert_int8_to_float_lane_i8 c = cvtepi32_ps_lane (cvtepi8_epi32_lane c) := by
  simp only [convert_int8_to_float_lane_i8, cvtepi32_ps_lane, cvtepi8_epi32_lane]
  rw [toSigned32_ofBits32_small _ (toSigned8_range c).1 (toSigned8_range c).2,
    roundIntToFloatVal_exact _ (toSigned8_natAbs_le c)]

/-- The direct `uint8→float` lane agrees with the composed `uint8→int32→float`
lane. -/
theorem lane_u8_direct_eq_composed (c : Nat) :
    convert_int8_to_float_lane_u8 c = cvtepi32_ps_lane (cvtepu8_epi32_lane c) := by
  simp only [convert_int8_to_float_lane_u8, cvtepi32_ps_lane, cvtepu8_epi32_lane]
  have h1 : toSigned 32 ((c % 2 ^ 8) % 2 ^ 32) = ((c % 2 ^ 8 : Nat) : Int) := by
    simp only [toSigned]
    split_ifs <;> omega
  rw [h1, roundIntToFloatVal_exact _ (by omega)]
  norm_cast

/-- C1: the float→int8 and float→uint8 lane conversions saturate: any value
above the destination maximum clamps to the maximum and any value below the
destination minimum clamps to the minimum; in particular `1000.0 → 127`,
`-1000.0 → -128` and `100.0 → 100` for the signed destination, also at
register level. -/
theorem float_to_int8_saturating (q r u v : ℚ)
    (hq : 127 < q) (hr : r < -128) (hu : 255 < u) (hv : v < 0) :
    convert_float_to_int8_lane_i8 q = 127 ∧
    convert_float_to_int8_lane_i8 r = -128 ∧
    convert_float_to_int8_lane_u8 u = 255 ∧
    convert_float_to_int8_lane_u8 v = 0 ∧
    convert_float_to_int8_lane_i8 1000 = 127 ∧
    convert_float_to_int8_lane_i8 (-1000) = -128 ∧
    convert_float_to_int8_lane_i8 100 = 100 ∧
    VecConvert_int8_1_float_1_apply [1000, -1000, 100] = [127, -128, 100] ∧
    VecConvert_uint8_1_float_1_apply [1000, -1000, 100] = [255, 0, 100] := by
  have hiq : (127 : Int) ≤ ⌊q⌋ := by
    rw [Int.le_floor]
    push_cast
    linarith
  have hir : ⌊r⌋ ≤ -129 := by
    have h2 : (⌊r⌋ : ℚ) < -128 := lt_of_le_of_lt (Int.floor_le r) hr
    have h3 : ⌊r⌋ < -128 := by exact_mod_cast h2
    omega
  have hiu : (255 : Int) ≤ ⌊u⌋ := by
    rw [Int.le_floor]
    push_cast
    linarith
  have hiv : ⌊v⌋ ≤ -1 := by
    have h2 : (⌊v⌋ : ℚ) < 0 := lt_of_le_of_lt (Int.floor_le v) hv
    have h3 : ⌊v⌋ < 0 := by exact_mod_cast h2
    omega
  refine ⟨?_, ?_, ?_, ?_, by decide, by decide, by decide, by decide, by decide⟩
  · rcases rne_cases q with h | h <;>
      simp only [convert_float_to_int8_lane_i8, satInt8, h] <;> omega
  · rcases rne_cases r with h | h <;>
      simp only [convert_float_to_int8_lane_i8, satInt8, h] <;> omega
  · rcases rne_cases u with h | h <;>
      simp only [convert_float_to_int8_lane_u8, satUint8, h] <;> omega
  · rcases rne_cases v with h | h <;>
      simp only [convert_float_to_int8_lane_u8, satUint8, h] <;> omega

theorem float_to_int8_saturating_witness :
    (127 : ℚ) < 1000 ∧ (-1000 : ℚ) < -128 ∧ (255 : ℚ) < 1000 ∧ (-1000 : ℚ) < 0 ∧
    (convert_float_to_int8_lane_i8 1000 = 127 ∧
     convert_float_to_int8_lane_i8 (-1000) = -128 ∧
     convert_float_to_int8_lane_u8 1000 = 255 ∧
     convert_float_to_int8_lane_u8 (-1000) = 0 ∧
     convert_float_to_int8_lane_i8 1000 = 127 ∧
     convert_float_to_int8_lane_i8 (-1000) = -128 ∧
     convert_float_to_int8_lane_i8 100 = 100 ∧
     VecConvert_int8_1_float_1_apply [1000, -1000, 100] = [127, -128, 100] ∧
     VecConvert_uint8_1_float_1_apply [1000, -1000, 100] = [255, 0, 100]) :=
  ⟨by decide, by decide, by decide, by decide,
   float_to_int8_saturating 1000 (-1000) 1000 (-1000)
     (by decide) (by decide) (by decide) (by decide)⟩

/-- C4: the float→int64 lane conversion truncates toward zero whenever the
truncated value fits in a signed 64-bit integer, and on overflow it returns
the hardware-defined pattern `-2 ^ 63` (no exception: the conversion is a
total function), e.g. for `9.3 × 10 ^ 18`, also for a whole register. -/
theorem float_to_int64_truncates (q : ℚ)
    (h1 : -(2 ^ 63) ≤ truncQ q) (h2 : truncQ q < 2 ^ 63) :
    cvt_roundps_epi64_lane q = truncQ q ∧
    (0 ≤ q → (truncQ q : ℚ) ≤ q ∧ q < truncQ q + 1) ∧
    (q < 0 → q ≤ (truncQ q : ℚ) ∧ (truncQ q : ℚ) - 1 < q) ∧
    cvt_roundps_epi64_lane 9300000000000000000 = -(2 ^ 63) ∧
    lanes2 (VecConvert_int64_2_float_1_apply (List.replicate 16 9300000000000000000))
      = List.replicate 16 (2 ^ 63) := by
  refine ⟨?_, ?_, ?_, by decide, by decide⟩
  · have hno : ¬(truncQ q < -(2 ^ 63) ∨ 2 ^ 63 ≤ truncQ q) := by
      push_neg
      exact ⟨h1, h2⟩
    simp only [cvt_roundps_epi64_lane, if_neg hno]
  · intro hq0
    simp only [truncQ, if_pos hq0]
    exact ⟨Int.floor_le q, Int.lt_floor_add_one q⟩
  · intro hq0
    have hn : ¬(0 ≤ q) := not_le.mpr hq0
    simp only [truncQ, if_neg hn]
    refine ⟨Int.le_ceil q, ?_⟩
    have := Int.ceil_lt_add_one q
    linarith

theorem float_to_int64_truncates_witness :
    -(2 ^ 63) ≤ truncQ 1000 ∧ truncQ 1000 < 2 ^ 63 ∧
    (cvt_roundps_epi64_lane 1000 = truncQ 1000 ∧
     (0 ≤ (1000 : ℚ) → (truncQ 1000 : ℚ) ≤ 1000 ∧ (1000 : ℚ) < truncQ 1000 + 1) ∧
     ((1000 : ℚ) < 0 → (1000 : ℚ) ≤ (truncQ 1000 : ℚ) ∧ (truncQ 1000 : ℚ) - 1 < 1000) ∧
     cvt_roundps_epi64_lane 9300000000000000000 = -(2 ^ 63) ∧
     lanes2 (VecConvert_int64_2_float_1_apply (List.replicate 16 9300000000000000000))
       = List.replicate 16 (2 ^ 63)) :=
  ⟨by decide, by decide, float_to_int64_truncates 1000 (by decide) (by decide)⟩

/-- C8: for every 8-bit lane, converting to float directly equals converting
through the 32-bit integer intermediate (lane level and register level, signed
and unsigned), and the 8-bit→float conversion is exact: the resulting lane
value is the integer value itself. -/
theorem int8_to_float_direct_eq_composed (b : Nat) (hb : b < 2 ^ 8) (s : List Nat) :
    convert_int8_to_float_lane_i8 b = cvtepi32_ps_lane (cvtepi8_epi32_lane b) ∧
    convert_int8_to_float_lane_u8 b = cvtepi32_ps_lane (cvtepu8_epi32_lane b) ∧
    VecConvert_float_1_int8_1_apply s
      = (VecConvert_int32_1_int8_1_apply s).map cvtepi32_ps_lane ∧
    VecConvert_float_1_uint8_1_apply s
      = (VecConvert_int32_1_uint8_1_apply s).map cvtepi32_ps_lane ∧
    convert_int8_to_float_lane_i8 b = (toSigned 8 b : ℚ) ∧
    convert_int8_to_float_lane_u8 b = (b : ℚ) := by
  refine ⟨lane_i8_direct_eq_composed b, lane_u8_direct_eq_composed b, ?_, ?_, ?_, ?_⟩
  · simp only [VecConvert_float_1_int8_1_apply, VecConvert_int32_1_int8_1_apply, List.map_map]
    exact List.map_congr_left fun c _ => lane_i8_direct_eq_composed c
  · simp only [VecConvert_float_1_uint8_1_apply, VecConvert_int32_1_uint8_1_apply, List.map_map]
    exact List.map_congr_left fun c _ => lane_u8_direct_eq_composed c
  · simp only [convert_int8_to_float_lane_i8, Nat.mod_eq_of_lt hb]
  · simp only [convert_int8_to_float_lane_u8, Nat.mod_eq_of_lt hb]

theorem int8_to_float_direct_eq_composed_witness :
    (200 : Nat) < 2 ^ 8 ∧
    (convert_int8_to_float_lane_i8 200 = cvtepi32_ps_lane (cvtepi8_epi32_lane 200) ∧
     convert_int8_to_float_lane_u8 200 = cvtepi32_ps_lane (cvtepu8_epi32_lane 200) ∧
     VecConvert_float_1_int8_1_apply (List.range 64)
       = (VecConvert_int32_1_int8_1_apply (List.range 64)).map cvtepi32_ps_lane ∧
     VecConvert_float_1_uint8_1_apply (List.range 64)
       = (VecConvert_int32_1_uint8_1_apply (List.range 64)).map cvtepi32_ps_lane ∧
     convert_int8_to_float_lane_i8 200 = (toSigned 8 200 : ℚ) ∧
     convert_int8_to_float_lane_u8 200 = (200 : ℚ)) :=
  ⟨by decide, int8_to_float_direct_eq_composed 200 (by decide) (List.range 64)⟩

/-- C7: the brain-float down-convert keeps exactly the top 16 bits of the
binary32 pattern, the up-convert zero-extends them back (low 16 bits zero), so
the float→bfloat16→float round trip preserves the top 16 bits and differs from
the original pattern only in the low 16 mantissa bits; also at register level,
where the round trip maps every lane pattern `x` to `x / 2 ^ 16 * 2 ^ 16`. -/
theorem bfloat16_roundtrip_top16 (b : Nat) (hb : b < 2 ^ 32)
    (s : List Nat) (hs : ∀ x ∈ s, x < 2 ^ 32) (hlen : s.length ≤ 16) :
    cvtfp32_bf16_lane b = b / 2 ^ 16 ∧
    cvtbf16_fp32_lane (cvtfp32_bf16_lane b) / 2 ^ 16 = b / 2 ^ 16 ∧
    cvtbf16_fp32_lane (cvtfp32_bf16_lane b) % 2 ^ 16 = 0 ∧
    b - cvtbf16_fp32_lane (cvtfp32_bf16_lane b) = b % 2 ^ 16 ∧
    b - cvtbf16_fp32_lane (cvtfp32_bf16_lane b) < 2 ^ 16 ∧
    VecConvert_float_1_BFloat16_1_apply (VecConvert_BFloat16_1_float_1_apply s)
      = s.map fun x => x / 2 ^ 16 * 2 ^ 16 := by
  refine ⟨?_, ?_, ?_, ?_, ?_, ?_⟩
  · simp only [cvtfp32_bf16_lane]
    omega
  · simp only [cvtfp32_bf16_lane, cvtbf16_fp32_lane]
    omega
  · simp only [cvtfp32_bf16_lane, cvtbf16_fp32_lane]
    omega
  · simp only [cvtfp32_bf16_lane, cvtbf16_fp32_lane]
    omega
  · simp only [cvtfp32_bf16_lane, cvtbf16_fp32_lane]
    omega
  · simp only [VecConvert_float_1_BFloat16_1_apply, VecConvert_BFloat16_1_float_1_apply]
    rw [List.take_of_length_le (by simpa using hlen), List.map_map]
    exact List.map_congr_left fun x hx => by
      have hx32 := hs x hx
      simp only [Function.comp_apply, cvtfp32_bf16_lane, cvtbf16_fp32_lane]
      omega

theorem bfloat16_roundtrip_top16_witness :
    (305419896 : Nat) < 2 ^ 32 ∧
    (∀ x ∈ ([1065353216, 3212836864, 1078530011] : List Nat), x < 2 ^ 32) ∧
    ([1065353216, 3212836864, 1078530011] : List Nat).length ≤ 16 ∧
    (cvtfp32_bf16_lane 305419896 = 305419896 / 2 ^ 16 ∧
     cvtbf16_fp32_lane (cvtfp32_bf16_lane 305419896) / 2 ^ 16 = 305419896 / 2 ^ 16 ∧
     cvtbf16_fp32_lane (cvtfp32_bf16_lane 305419896) % 2 ^ 16 = 0 ∧
     305419896 - cvtbf16_fp32_lane (cvtfp32_bf16_lane 305419896) = 305419896 % 2 ^ 16 ∧
     305419896 - cvtbf16_fp32_lane (cvtfp32_bf16_lane 305419896) < 2 ^ 16 ∧
     VecConvert_float_1_BFloat16_1_apply
         (VecConvert_BFloat16_1_float_1_apply [1065353216, 3212836864, 1078530011])
       = ([1065353216, 3212836864, 1078530011] : List Nat).map fun x => x / 2 ^ 16 * 2 ^ 16) :=
  ⟨by decide, by decide, by decide,
   bfloat16_roundtrip_top16 305419896 (by decide)
     [1065353216, 3212836864, 1078530011] (by decide) (by decide)⟩

end Vec512Convert

namespace Vec512Convert

/-- The two registers produced by the int64←int32 widening kernel hold, in
logical order, the sign-extensions of the source lanes. -/
theorem lanes2_int64_2_int32_1 (u : List Nat) :
    lanes2 (VecConvert_int64_2_int32_1_apply u) = u.map cvtepi32_epi64_lane := by
  simp only [lanes2, VecConvert_int64_2_int32_1_apply]
  rw [← List.map_append, List.take_append_drop]

/-- The two registers produced by the int64←float kernel hold, in logical
order, the truncations of the source lanes. -/
theorem lanes2_int64_2_float_1 (f : List ℚ) :
    lanes2 (VecConvert_int64_2_float_1_apply f)
      = f.map fun q => ofBits 64 (cvt_roundps_epi64_lane q) := by
  simp only [lanes2, VecConvert_int64_2_float_1_apply]
  rw [← List.map_append, List.take_append_drop]

/-- The composed int8←int64 kernel maps each logical lane independently. -/
theorem comp_int8_int64_eq_map (s0 s1 : List Nat) :
    VecConvert_int8_1_int64_2_apply s0 s1
      = (s0 ++ s1).map fun b => satInt8 (toSigned 32 (cvtepi64_epi32_lane b % 2 ^ 32)) := by
  simp only [VecConvert_int8_1_int64_2_apply, VecConvert_int8_1_int32_1_apply,
    VecConvert_int32_1_int64_2_apply, List.map_append, List.map_map, ← List.map_append]
  rfl

/-- The composed uint8←int64 kernel maps each logical lane independently. -/
theorem comp_uint8_int64_eq_map (s0 s1 : List Nat) :
    VecConvert_uint8_1_int64_2_apply s0 s1
      = (s0 ++ s1).map fun b => satUint8 (toSigned 32 (cvtepi64_epi32_lane b % 2 ^ 32)) := by
  simp only [VecConvert_uint8_1_int64_2_apply, VecConvert_uint8_1_int32_1_apply,
    VecConvert_int32_1_int64_2_apply, List.map_append, List.map_map, ← List.map_append]
  rfl

/-- C2: every kernel of the conversion set preserves lane order: logical output
element `i` is the lane conversion of logical input element `i`, for the
merging kernels (two registers into one), the splitting kernels (one register
into two), the width-changing 8-bit→32-bit kernels (whose 16 output lanes come
from the first 16 source lanes in order), the 16-lane one-register kernels, and
the composed 8-bit←64-bit kernels. -/
theorem lane_order_preserved (s0 s1 u : List Nat) (f : List ℚ) (i : Nat) (hi : i < 16) :
    (VecConvert_float_1_int64_2_apply s0 s1)[i]? = ((s0 ++ s1)[i]?).map cvtepi64_ps_lane ∧
    (VecConvert_int32_1_int64_2_apply s0 s1)[i]? = ((s0 ++ s1)[i]?).map cvtepi64_epi32_lane ∧
    (lanes2 (VecConvert_int64_2_int32_1_apply u))[i]? = (u[i]?).map cvtepi32_epi64_lane ∧
    (lanes2 (VecConvert_int64_2_float_1_apply f))[i]?
      = (f[i]?).map (fun q => ofBits 64 (cvt_roundps_epi64_lane q)) ∧
    (VecConvert_int32_1_int8_1_apply u)[i]? = (u[i]?).map cvtepi8_epi32_lane ∧
    (VecConvert_int32_1_uint8_1_apply u)[i]? = (u[i]?).map cvtepu8_epi32_lane ∧
    (VecConvert_float_1_BFloat16_1_apply u)[i]? = (u[i]?).map cvtbf16_fp32_lane ∧
    (VecConvert_float_1_Half_1_apply u)[i]? = (u[i]?).map cvtfp16_fp32_lane ∧
    (VecConvert_BFloat16_1_float_1_apply u)[i]? = (u[i]?).map cvtfp32_bf16_lane ∧
    (VecConvert_Half_1_float_1_apply u)[i]? = (u[i]?).map cvtfp32_fp16_lane ∧
    (VecConvert_int8_1_float_1_apply f)[i]? = (f[i]?).map convert_float_to_int8_lane_i8 ∧
    (VecConvert_uint8_1_float_1_apply f)[i]? = (f[i]?).map convert_float_to_int8_lane_u8 ∧
    (VecConvert_float_1_int8_1_apply u)[i]? = (u[i]?).map convert_int8_to_float_lane_i8 ∧
    (VecConvert_float_1_uint8_1_apply u)[i]? = (u[i]?).map convert_int8_to_float_lane_u8 ∧
    (VecConvert_int8_1_int64_2_apply s0 s1)[i]?
      = ((s0 ++ s1)[i]?).map (fun b => satInt8 (toSigned 32 (cvtepi64_epi32_lane b % 2 ^ 32))) ∧
    (VecConvert_uint8_1_int64_2_apply s0 s1)[i]?
      = ((s0 ++ s1)[i]?).map (fun b => satUint8 (toSigned 32 (cvtepi64_epi32_lane b % 2 ^ 32))) := by
  refine ⟨?_, ?_, ?_, ?_, ?_, ?_, ?_, ?_, ?_, ?_, ?_, ?_, ?_, ?_, ?_, ?_⟩
  · simp only [VecConvert_float_1_int64_2_apply, ← List.map_append, List.getElem?_map]
  · simp only [VecConvert_int32_1_int64_2_apply, ← List.map_append, List.getElem?_map]
  · rw [lanes2_int64_2_int32_1]
    simp only [List.getElem?_map]
  · rw [lanes2_int64_2_float_1]
    simp only [List.getElem?_map]
  · simp only [VecConvert_int32_1_int8_1_apply, List.getElem?_map,
      List.getElem?_take_of_lt hi]
  · simp only [VecConvert_int32_1_uint8_1_apply, List.getElem?_map,
      List.getElem?_take_of_lt hi]
  · simp only [VecConvert_float_1_BFloat16_1_apply, List.getElem?_map,
      List.getElem?_take_of_lt hi]
  · simp only [VecConvert_float_1_Half_1_apply, List.getElem?_map,
      List.getElem?_take_of_lt hi]
  · simp only [VecConvert_BFloat16_1_float_1_apply, List.getElem?_map]
  · simp only [VecConvert_Half_1_float_1_apply, List.getElem?_map]
  · simp only [VecConvert_int8_1_float_1_apply, List.getElem?_map]
  · simp only [VecConvert_uint8_1_float_1_apply, List.getElem?_map]
  · simp only [VecConvert_float_1_int8_1_apply, List.getElem?_map,
      List.getElem?_take_of_lt hi]
  · simp only [VecConvert_float_1_uint8_1_apply, List.getElem?_map,
      List.getElem?_take_of_lt hi]
  · rw [comp_int8_int64_eq_map]
    simp only [List.getElem?_map]
  · rw [comp_uint8_int64_eq_map]
    simp only [List.getElem?_map]

theorem lane_order_preserved_witness :
    (1 : Nat) < 16 ∧
    ((VecConvert_float_1_int64_2_apply [3, 4] [5, 6])[1]?
        = (([3, 4] ++ [5, 6] : List Nat)[1]?).map cvtepi64_ps_lane ∧
     (VecConvert_int32_1_int64_2_apply [3, 4] [5, 6])[1]?
        = (([3, 4] ++ [5, 6] : List Nat)[1]?).map cvtepi64_epi32_lane ∧
     (lanes2 (VecConvert_int64_2_int32_1_apply [7, 8, 9]))[1]?
        = (([7, 8, 9] : List Nat)[1]?).map cvtepi32_epi64_lane ∧
     (lanes2 (VecConvert_int64_2_float_1_apply [10, 11]))[1]?
        = (([10, 11] : List ℚ)[1]?).map (fun q => ofBits 64 (cvt_roundps_epi64_lane q)) ∧
     (VecConvert_int32_1_int8_1_apply [7, 8, 9])[1]?
        = (([7, 8, 9] : List Nat)[1]?).map cvtepi8_epi32_lane ∧
     (VecConvert_int32_1_uint8_1_apply [7, 8, 9])[1]?
        = (([7, 8, 9] : List Nat)[1]?).map cvtepu8_epi32_lane ∧
     (VecConvert_float_1_BFloat16_1_apply [7, 8, 9])[1]?
        = (([7, 8, 9] : List Nat)[1]?).map cvtbf16_fp32_lane ∧
     (VecConvert_float_1_Half_1_apply [7, 8, 9])[1]?
        = (([7, 8, 9] : List Nat)[1]?).map cvtfp16_fp32_lane ∧
     (VecConvert_BFloat16_1_float_1_apply [7, 8, 9])[1]?
        = (([7, 8, 9] : List Nat)[1]?).map cvtfp32_bf16_lane ∧
     (VecConvert_Half_1_float_1_apply [7, 8, 9])[1]?
        = (([7, 8, 9] : List Nat)[1]?).map cvtfp32_fp16_lane ∧
     (VecConvert_int8_1_float_1_apply [10, 11])[1]?
        = (([10, 11] : List ℚ)[1]?).map convert_float_to_int8_lane_i8 ∧
     (VecConvert_uint8_1_float_1_apply [10, 11])[1]?
        = (([10, 11] : List ℚ)[1]?).map convert_float_to_int8_lane_u8 ∧
     (VecConvert_float_1_int8_1_apply [7, 8, 9])[1]?
        = (([7, 8, 9] : List Nat)[1]?).map convert_int8_to_float_lane_i8 ∧
     (VecConvert_float_1_uint8_1_apply [7, 8, 9])[1]?
        = (([7, 8, 9] : List Nat)[1]?).map convert_int8_to_float_lane_u8 ∧
     (VecConvert_int8_1_int64_2_apply [3, 4] [5, 6])[1]?
        = ((([3, 4] ++ [5, 6] : List Nat))[1]?).map
            (fun b => satInt8 (toSigned 32 (cvtepi64_epi32_lane b % 2 ^ 32))) ∧
     (VecConvert_uint8_1_int64_2_apply [3, 4] [5, 6])[1]?
        = ((([3, 4] ++ [5, 6] : List Nat))[1]?).map
            (fun b => satUint8 (toSigned 32 (cvtepi64_epi32_lane b % 2 ^ 32)))) :=
  ⟨by decide, lane_order_preserved [3, 4] [5, 6] [7, 8, 9] [10, 11] 1 (by decide)⟩

end Vec512Convert
